import Mathlib

/-!
Shallow embedding of churn_review.py: a batch utility that loads churned
customer accounts from CSV or JSON, keeps those that churned within a
lookback window of whole calendar months, and maps each to a review item.
File reading, argument parsing and printing are external; loaders are
modelled on the parsed record lists the files would yield.
-/

namespace ChurnReview

/-- Calendar date with year, month (1 to 12) and day (1-based), mirroring
Python datetime.date. Fields are unbounded integers; validity is tracked by
the separate predicate Date.valid. -/
structure Date where
  year : Int
  month : Int
  day : Int
deriving DecidableEq

/-- Gregorian leap-year rule of Python datetime (divisible by 4 and, when
divisible by 100, also by 400). Int emod agrees with Python percent on the
positive moduli used here. -/
def is_leap_year (year : Int) : Bool :=
  decide (year % 4 = 0 ∧ (year % 100 ≠ 0 ∨ year % 400 = 0))

/-- Embedding of _days_in_month. The source computes
(next_month - date(year, month, 1)).days; over the proleptic Gregorian
calendar of datetime.date that difference is exactly the standard month
length, with February governed by the leap-year rule. -/
def days_in_month (year month : Int) : Int :=
  if month = 2 then (if is_leap_year year then 29 else 28)
  else if month = 4 ∨ month = 6 ∨ month = 9 ∨ month = 11 then 30
  else 31

/-- Embedding of _subtract_months. Python floor division and floor modulo
are Int.fdiv and Int.fmod. -/
def subtract_months (anchor : Date) (months : Int) : Date :=
  let total_months : Int := anchor.year * 12 + (anchor.month - 1) - months
  let year := Int.fdiv total_months 12
  let month := Int.fmod total_months 12 + 1
  let day := min anchor.day (days_in_month year month)
  { year := year, month := month, day := day }

/-- Lexicographic order on dates, as Python compares date values. -/
def date_le (a b : Date) : Bool :=
  decide (a.year < b.year ∨ (a.year = b.year ∧
    (a.month < b.month ∨ (a.month = b.month ∧ a.day ≤ b.day))))

/-- Valid calendar date of the proleptic Gregorian calendar: month in range
and day within the length of that month. -/
def Date.valid (d : Date) : Prop :=
  1 ≤ d.month ∧ d.month ≤ 12 ∧ 1 ≤ d.day ∧ d.day ≤ days_in_month d.year d.month

instance decidable_date_valid (d : Date) : Decidable d.valid :=
  inferInstanceAs (Decidable (1 ≤ d.month ∧ d.month ≤ 12 ∧ 1 ≤ d.day ∧
    d.day ≤ days_in_month d.year d.month))

/-- Account record: immutable value produced by the loaders. Optional
fields default to none, as in the dataclass. -/
structure Account where
  account_id : String
  account_name : String
  churned_at : Date
  churn_reason : Option String := none
  owner : Option String := none
deriving DecidableEq

/-- Review item: an account decorated with notes and a next action. -/
structure ReviewItem where
  account : Account
  review_notes : String
  next_action : String
deriving DecidableEq

/-- Splits a character list on the dash character; groups may be empty. -/
def split_on_dash : List Char → List (List Char)
  | [] => [[]]
  | c :: cs =>
    if c = '-' then [] :: split_on_dash cs
    else
      match split_on_dash cs with
      | [] => [[c]]
      | g :: gs => (c :: g) :: gs

/-- Reads a run of decimal digits into a number, failing on any other
character. -/
def digits_to_nat : List Char → Nat → Option Nat
  | [], acc => some acc
  | c :: cs, acc =>
    if c.isDigit then digits_to_nat cs (acc * 10 + (c.toNat - 48)) else none

/-- Numeric value of a nonempty all-digit component. -/
def parse_component (cs : List Char) : Option Nat :=
  match cs with
  | [] => none
  | _ => digits_to_nat cs 0

/-- Embedding of _parse_date, that is strptime(value, "%Y-%m-%d").date():
the string must consist of three dash-separated decimal components read as
year, month and day, and the triple must denote a valid calendar date with
year at least 1 (strptime and the date constructor reject out-of-range
months, days and years). -/
def parse_date (value : String) : Option Date :=
  match split_on_dash value.data with
  | [y, m, d] =>
    match parse_component y, parse_component m, parse_component d with
    | some yy, some mm, some dd =>
      if 1 ≤ (yy : Int) ∧ Date.valid { year := (yy : Int), month := (mm : Int), day := (dd : Int) }
      then some { year := (yy : Int), month := (mm : Int), day := (dd : Int) }
      else none
    | _, _, _ => none
  | _ => none

/-- Parsed CSV row as csv.DictReader yields it: the three required columns
are carried as strings (a row whose header lacks them makes the Python load
raise a KeyError before any Account is produced), and each optional column
is none when missing from the header or left without a value. -/
structure CsvRow where
  account_id : String
  account_name : String
  churned_at : String
  churn_reason : Option String := none
  owner : Option String := none
deriving DecidableEq

/-- Parsed JSON object for one account: the required keys as strings, and
each optional key none when absent or null, which is how dict.get surfaces
both. -/
structure JsonEntry where
  account_id : String
  account_name : String
  churned_at : String
  churn_reason : Option String := none
  owner : Option String := none
deriving DecidableEq

/-- Python expression (v or None) on an optional string: None and the empty
string are falsy and give None; any other string is kept. -/
def or_none : Option String → Option String
  | none => none
  | some s => if s = "" then none else some s

/-- Loop body of load_accounts_from_csv for one row. -/
def csv_row_to_account (row : CsvRow) : Except String Account :=
  match parse_date row.churned_at with
  | none => Except.error "invalid date"
  | some d =>
    Except.ok { account_id := row.account_id, account_name := row.account_name,
                churned_at := d, churn_reason := or_none row.churn_reason,
                owner := or_none row.owner }

/-- Embedding of load_accounts_from_csv on the parsed rows of the file: one
Account per row in order, aborting at the first row whose churned_at fails
to parse. -/
def load_accounts_from_csv : List CsvRow → Except String (List Account)
  | [] => Except.ok []
  | row :: rest =>
    match csv_row_to_account row with
    | Except.error e => Except.error e
    | Except.ok a =>
      match load_accounts_from_csv rest with
      | Except.error e => Except.error e
      | Except.ok rest_accounts => Except.ok (a :: rest_accounts)

/-- Loop body of load_accounts_from_json for one entry. Unlike the CSV
path, churn_reason and owner are taken from dict.get directly, with no
(... or None) normalization. -/
def json_entry_to_account (entry : JsonEntry) : Except String Account :=
  match parse_date entry.churned_at with
  | none => Except.error "invalid date"
  | some d =>
    Except.ok { account_id := entry.account_id, account_name := entry.account_name,
                churned_at := d, churn_reason := entry.churn_reason,
                owner := entry.owner }

/-- Embedding of load_accounts_from_json on the parsed array of objects. -/
def load_accounts_from_json : List JsonEntry → Except String (List Account)
  | [] => Except.ok []
  | entry :: rest =>
    match json_entry_to_account entry with
    | Except.error e => Except.error e
    | Except.ok a =>
      match load_accounts_from_json rest with
      | Except.error e => Except.error e
      | Except.ok rest_accounts => Except.ok (a :: rest_accounts)

/-- Embedding of select_recent_churns. The as_of argument is explicit; the
Python default (date.today() when as_of is None) is the callers current
date, which a pure embedding takes as an input. -/
def select_recent_churns (accounts : List Account) (months : Int) (as_of : Date) :
    List Account :=
  let cutoff := subtract_months as_of months
  accounts.filter (fun account =>
    date_le cutoff account.churned_at && date_le account.churned_at as_of)

/-- Python truthiness of an optional string: None and the empty string are
falsy, every other string is truthy. -/
def truthy : Option String → Bool
  | none => false
  | some s => decide (s ≠ "")

/-- Loop body of build_review_plan for one account. -/
def review_item_for (account : Account) : ReviewItem :=
  let notes := if truthy account.churn_reason then
      "Review churn reason: " ++ account.churn_reason.getD "" ++ "."
    else "Confirm churn reason and validate offboarding completion."
  let action := if truthy account.owner then
      "Schedule follow-up with " ++ account.owner.getD "" ++ "."
    else "Schedule follow-up with account owner."
  { account := account, review_notes := notes, next_action := action }

/-- Embedding of build_review_plan: one ReviewItem per account, in order. -/
def build_review_plan (accounts : List Account) : List ReviewItem :=
  accounts.map review_item_for

/-- ASCII lowering of one character, the effect of str.lower on the ASCII
extensions dispatched on here. -/
def lower_char (c : Char) : Char :=
  if 'A' ≤ c ∧ c ≤ 'Z' then Char.ofNat (c.toNat + 32) else c

/-- ASCII model of str.lower. -/
def lower_string (s : String) : String :=
  String.mk (s.data.map lower_char)

/-- Embedding of run_review. The suffix argument models input_path.suffix
(the final extension of the path, dot included); csv_rows and json_entries
model the parsed content the corresponding loader would read from the file,
so that dependence of the result on file content is explicit; as_of models
the current date used by selection. Python raises ValueError on an
unsupported extension, modelled as the error branch. -/
def run_review (suffix : String) (csv_rows : List CsvRow)
    (json_entries : List JsonEntry) (months : Int) (as_of : Date) :
    Except String (List ReviewItem) :=
  if lower_string suffix = ".csv" then
    match load_accounts_from_csv csv_rows with
    | Except.error e => Except.error e
    | Except.ok accounts =>
      Except.ok (build_review_plan (select_recent_churns accounts months as_of))
  else if lower_string suffix = ".json" then
    match load_accounts_from_json json_entries with
    | Except.error e => Except.error e
    | Except.ok accounts =>
      Except.ok (build_review_plan (select_recent_churns accounts months as_of))
  else Except.error "Supported input formats: .csv, .json"

/-- Spec-side wording for review_notes, amended for the code behaviour on
the empty string: the formatted note when churn_reason is present and
nonempty, otherwise the fixed default. Kept separate from review_item_for
so the two can be compared. -/
def spec_review_notes (churn_reason : Option String) : String :=
  match churn_reason with
  | some s =>
    if s = "" then "Confirm churn reason and validate offboarding completion."
    else "Review churn reason: " ++ s ++ "."
  | none => "Confirm churn reason and validate offboarding completion."

/-- Spec-side wording for next_action, amended the same way. -/
def spec_next_action (owner : Option String) : String :=
  match owner with
  | some s =>
    if s = "" then "Schedule follow-up with account owner."
    else "Schedule follow-up with " ++ s ++ "."
  | none => "Schedule follow-up with account owner."

/-- Minimal account used in concrete checks. -/
def test_account (id : String) (d : Date) : Account :=
  { account_id := id, account_name := id, churned_at := d }

/-- Per-record contract of the CSV loader: identity on the required string
fields, parsed valid date, and both optional fields routed through
(value or None), hence never the present empty string. -/
def csv_row_spec (row : CsvRow) (a : Account) : Prop :=
  a.account_id = row.account_id ∧ a.account_name = row.account_name ∧
  parse_date row.churned_at = some a.churned_at ∧ a.churned_at.valid ∧
  a.churn_reason = or_none row.churn_reason ∧ a.owner = or_none row.owner ∧
  a.churn_reason ≠ some "" ∧ a.owner ≠ some ""

/-- Per-record contract of the JSON loader: identity on the required string
fields, parsed valid date, and both optional fields taken verbatim from the
entry (none for a missing or null key, an empty string kept as is). -/
def json_entry_spec (entry : JsonEntry) (a : Account) : Prop :=
  a.account_id = entry.account_id ∧ a.account_name = entry.account_name ∧
  parse_date entry.churned_at = some a.churned_at ∧ a.churned_at.valid ∧
  a.churn_reason = entry.churn_reason ∧ a.owner = entry.owner

/-- Concrete JSON entry whose optional churn_reason is the present empty
string. -/
def entry_a1 : JsonEntry :=
  { account_id := "A1"
    account_name := "Acme"
    churned_at := "2024-01-02"
    churn_reason := some ""
    owner := none }

/-- Account that load_accounts_from_json produces for entry_a1. -/
def account_a1 : Account :=
  { account_id := "A1"
    account_name := "Acme"
    churned_at := ⟨2024, 1, 2⟩
    churn_reason := some ""
    owner := none }

/-- Concrete CSV row whose churn_reason column is empty and whose owner is
set. -/
def row_b1 : CsvRow :=
  { account_id := "B1"
    account_name := "Beta"
    churned_at := "2024-01-02"
    churn_reason := some ""
    owner := some "Jane" }

/-- Account that load_accounts_from_csv produces for row_b1: the empty
churn_reason is normalized to none. -/
def account_b1 : Account :=
  { account_id := "B1"
    account_name := "Beta"
    churned_at := ⟨2024, 1, 2⟩
    churn_reason := none
    owner := some "Jane" }

/-- Account whose optional fields are both the present empty string. -/
def account_empty_fields : Account :=
  { account_id := "A1"
    account_name := "Acme"
    churned_at := ⟨2024, 1, 2⟩
    churn_reason := some ""
    owner := some "" }

/-- Account with an empty churn_reason but a set owner. -/
def account_mixed_reason : Account :=
  { account_id := "M1"
    account_name := "Mix"
    churned_at := ⟨2024, 1, 2⟩
    churn_reason := some ""
    owner := some "Jane" }

/-- Account with a set churn_reason but an empty owner. -/
def account_mixed_owner : Account :=
  { account_id := "M2"
    account_name := "Mix"
    churned_at := ⟨2024, 1, 2⟩
    churn_reason := some "Pricing"
    owner := some "" }

lemma days_in_month_ge (year month : Int) : 28 ≤ days_in_month year month := by
  unfold days_in_month
  split
  · split <;> norm_num
  · split <;> norm_num

lemma subtract_months_eq (anchor : Date) (months : Int) :
    subtract_months anchor months =
      { year := (anchor.year * 12 + (anchor.month - 1) - months) / 12,
        month := (anchor.year * 12 + (anchor.month - 1) - months) % 12 + 1,
        day := min anchor.day (days_in_month
          ((anchor.year * 12 + (anchor.month - 1) - months) / 12)
          ((anchor.year * 12 + (anchor.month - 1) - months) % 12 + 1)) } := by
  simp only [subtract_months]
  rw [Int.fdiv_eq_ediv _ (by norm_num), Int.fmod_eq_emod _ (by norm_num)]

lemma subtract_months_valid (anchor : Date) (months : Int) (h : anchor.valid) :
    (subtract_months anchor months).valid := by
  obtain ⟨h1, h2, h3, h4⟩ := h
  rw [subtract_months_eq]
  have hd := days_in_month_ge ((anchor.year * 12 + (anchor.month - 1) - months) / 12)
    ((anchor.year * 12 + (anchor.month - 1) - months) % 12 + 1)
  refine ⟨?_, ?_, ?_, ?_⟩ <;> simp only [] <;> omega

lemma subtract_months_zero (d : Date) (h : d.valid) : subtract_months d 0 = d := by
  obtain ⟨h1, h2, h3, h4⟩ := h
  rw [subtract_months_eq]
  have hy : (d.year * 12 + (d.month - 1) - 0) / 12 = d.year := by omega
  have hm : (d.year * 12 + (d.month - 1) - 0) % 12 + 1 = d.month := by omega
  rw [hy, hm]
  have hday : min d.day (days_in_month d.year d.month) = d.day := by omega
  rw [hday]

lemma parse_date_valid (s : String) (d : Date) (h : parse_date s = some d) :
    1 ≤ d.year ∧ d.valid := by
  unfold parse_date at h
  split at h
  · split at h
    · split at h
      · rename_i hcond
        injection h with h
        subst h
        exact hcond
      · cases h
    · cases h
  · cases h

lemma or_none_ne_some_empty (v : Option String) : or_none v ≠ some "" := by
  cases v with
  | none => exact fun h => Option.noConfusion h
  | some s =>
    show (if s = "" then none else (some s : Option String)) ≠ some ""
    split
    · exact fun h => Option.noConfusion h
    · rename_i hs
      intro h
      injection h with h
      exact hs h

lemma csv_row_to_account_ok (row : CsvRow) (a : Account)
    (h : csv_row_to_account row = Except.ok a) : csv_row_spec row a := by
  unfold csv_row_to_account at h
  split at h
  · cases h
  · rename_i d hparse
    injection h with h
    subst h
    have hv := parse_date_valid row.churned_at d hparse
    exact ⟨rfl, rfl, hparse, hv.2, rfl, rfl,
      or_none_ne_some_empty row.churn_reason, or_none_ne_some_empty row.owner⟩

lemma json_entry_to_account_ok (entry : JsonEntry) (a : Account)
    (h : json_entry_to_account entry = Except.ok a) : json_entry_spec entry a := by
  unfold json_entry_to_account at h
  split at h
  · cases h
  · rename_i d hparse
    injection h with h
    subst h
    have hv := parse_date_valid entry.churned_at d hparse
    exact ⟨rfl, rfl, hparse, hv.2, rfl, rfl⟩

lemma load_csv_forall (rows : List CsvRow) (accounts : List Account)
    (h : load_accounts_from_csv rows = Except.ok accounts) :
    List.Forall₂ csv_row_spec rows accounts := by
  induction rows generalizing accounts with
  | nil =>
    simp only [load_accounts_from_csv] at h
    injection h with h
    subst h
    exact List.Forall₂.nil
  | cons row rest ih =>
    simp only [load_accounts_from_csv] at h
    split at h
    · cases h
    · rename_i a hrow
      split at h
      · cases h
      · rename_i rest_accounts hrest
        injection h with h
        subst h
        exact List.Forall₂.cons (csv_row_to_account_ok row a hrow) (ih rest_accounts hrest)

lemma load_json_forall (entries : List JsonEntry) (accounts : List Account)
    (h : load_accounts_from_json entries = Except.ok accounts) :
    List.Forall₂ json_entry_spec entries accounts := by
  induction entries generalizing accounts with
  | nil =>
    simp only [load_accounts_from_json] at h
    injection h with h
    subst h
    exact List.Forall₂.nil
  | cons entry rest ih =>
    simp only [load_accounts_from_json] at h
    split at h
    · cases h
    · rename_i a hentry
      split at h
      · cases h
      · rename_i rest_accounts hrest
        injection h with h
        subst h
        exact List.Forall₂.cons (json_entry_to_account_ok entry a hentry)
          (ih rest_accounts hrest)

lemma review_item_for_account (a : Account) : (review_item_for a).account = a := rfl

lemma review_item_for_spec (a : Account) :
    review_item_for a =
      ReviewItem.mk a (spec_review_notes a.churn_reason) (spec_next_action a.owner) := by
  obtain ⟨id, name, d, cr, ow⟩ := a
  cases cr with
  | none =>
    cases ow with
    | none => rfl
    | some t =>
      by_cases ht : t = "" <;>
        simp [review_item_for, spec_review_notes, spec_next_action, truthy, ht]
  | some s =>
    cases ow with
    | none =>
      by_cases hs : s = "" <;>
        simp [review_item_for, spec_review_notes, spec_next_action, truthy, hs]
    | some t =>
      by_cases hs : s = "" <;> by_cases ht : t = "" <;>
        simp [review_item_for, spec_review_notes, spec_next_action, truthy, hs, ht]

/-- Claim C1 as stated is refuted on the JSON path: an entry whose
churn_reason is the present empty string is loaded into an Account whose
churn_reason is the stored empty string, not none. -/
theorem loaders_invariant_counterexample :
    entry_a1.churn_reason = some "" ∧
    load_accounts_from_json [entry_a1] = Except.ok [account_a1] ∧
    account_a1.churn_reason = some "" :=
  ⟨rfl, rfl, rfl⟩

/-- Claim C1, amended: every Account either loader produces has its
required string fields copied from the record, a churned_at that parses to
a valid calendar date, and optional fields as follows: the CSV loader
routes churn_reason and owner through (value or None), so an empty or
missing input is stored as none and a present empty string never survives;
the JSON loader copies the optional fields verbatim, so missing or null
input is stored as none but a present empty string is kept. -/
theorem loaders_invariant_amended (rows : List CsvRow) (entries : List JsonEntry)
    (csv_accounts json_accounts : List Account)
    (hcsv : load_accounts_from_csv rows = Except.ok csv_accounts)
    (hjson : load_accounts_from_json entries = Except.ok json_accounts) :
    List.Forall₂ csv_row_spec rows csv_accounts ∧
    List.Forall₂ json_entry_spec entries json_accounts :=
  ⟨load_csv_forall rows csv_accounts hcsv, load_json_forall entries json_accounts hjson⟩

/-- Witness instantiating the amended claim C1 on one CSV row and one JSON
entry. -/
theorem loaders_invariant_amended_witness :
    List.Forall₂ csv_row_spec [row_b1] [account_b1] ∧
    List.Forall₂ json_entry_spec [entry_a1] [account_a1] :=
  loaders_invariant_amended [row_b1] [entry_a1] [account_b1] [account_a1] rfl rfl

/-- Claim C2: _subtract_months clamps the day of month. For a valid anchor
the result is a valid date, its day is the minimum of the anchor day and
the target month length, and whenever the anchor day does not fit in the
target month the result day is exactly the last day of the target month;
concretely, 2024-03-31 minus one month is 2024-02-29 and 2023-03-31 minus
one month is 2023-02-28. -/
theorem subtract_months_clamps_day (anchor : Date) (months : Int) (h : anchor.valid) :
    (subtract_months anchor months).valid ∧
    (subtract_months anchor months).day =
      min anchor.day
        (days_in_month (subtract_months anchor months).year
          (subtract_months anchor months).month) ∧
    (days_in_month (subtract_months anchor months).year
        (subtract_months anchor months).month < anchor.day →
      (subtract_months anchor months).day =
        days_in_month (subtract_months anchor months).year
          (subtract_months anchor months).month) ∧
    subtract_months ⟨2024, 3, 31⟩ 1 = ⟨2024, 2, 29⟩ ∧
    subtract_months ⟨2023, 3, 31⟩ 1 = ⟨2023, 2, 28⟩ := by
  refine ⟨subtract_months_valid anchor months h, ?_, ?_, by decide, by decide⟩ <;>
    rw [subtract_months_eq] <;> simp only []
  · intro hlt
    omega

/-- Witness instantiating claim C2 at the leap-year anchor 2024-03-31. -/
theorem subtract_months_clamps_day_witness :
    (subtract_months ⟨2024, 3, 31⟩ 1).valid :=
  (subtract_months_clamps_day ⟨2024, 3, 31⟩ 1 (by decide)).1

/-- Claim C3: select_recent_churns keeps exactly the accounts whose
churned_at lies between the cutoff _subtract_months(as_of, months) and
as_of, both bounds inclusive; concretely, with anchor 2024-06-15 and a
3-month window the cutoff is 2024-03-15, accounts churned on 2024-03-15
and 2024-06-15 are kept and accounts churned on 2024-03-14 and 2024-06-16
are dropped. -/
theorem select_recent_churns_window (accounts : List Account) (months : Int)
    (as_of : Date) (h : 0 ≤ months) :
    (∀ a, a ∈ select_recent_churns accounts months as_of ↔
      a ∈ accounts ∧ date_le (subtract_months as_of months) a.churned_at = true ∧
        date_le a.churned_at as_of = true) ∧
    subtract_months ⟨2024, 6, 15⟩ 3 = ⟨2024, 3, 15⟩ ∧
    select_recent_churns
        [test_account "a" ⟨2024, 3, 15⟩, test_account "b" ⟨2024, 3, 14⟩,
         test_account "c" ⟨2024, 6, 15⟩, test_account "d" ⟨2024, 6, 16⟩] 3 ⟨2024, 6, 15⟩ =
      [test_account "a" ⟨2024, 3, 15⟩, test_account "c" ⟨2024, 6, 15⟩] := by
  refine ⟨?_, by decide, by decide⟩
  intro a
  simp [select_recent_churns, List.mem_filter, Bool.and_eq_true, and_assoc]

/-- Witness instantiating claim C3 at the documented anchor and window. -/
theorem select_recent_churns_window_witness :
    subtract_months ⟨2024, 6, 15⟩ 3 = ⟨2024, 3, 15⟩ :=
  (select_recent_churns_window [] 3 ⟨2024, 6, 15⟩ (by decide)).2.1

/-- Claim C4 as stated is refuted on an account whose churn_reason and
owner are the present empty string: both fields are present, yet the code
falls back to the two fixed default strings instead of the formatted
ones. -/
theorem build_review_plan_counterexample :
    account_empty_fields.churn_reason = some "" ∧
    account_empty_fields.owner = some "" ∧
    build_review_plan [account_empty_fields] =
      [ReviewItem.mk account_empty_fields
        "Confirm churn reason and validate offboarding completion."
        "Schedule follow-up with account owner."] ∧
    "Confirm churn reason and validate offboarding completion." ≠
      "Review churn reason: ." ∧
    "Schedule follow-up with account owner." ≠ "Schedule follow-up with ." :=
  ⟨rfl, rfl, by decide, by decide, by decide⟩

/-- Claim C4, amended: build_review_plan yields exactly one ReviewItem per
input Account in the same order, holding the account itself, with the
formatted review_notes and next_action exactly when the respective optional
field is present and nonempty, and the fixed default strings when the field
is absent or the empty string (spec_review_notes and spec_next_action spell
out that amended wording). -/
theorem build_review_plan_amended (accounts : List Account) :
    build_review_plan accounts =
      accounts.map (fun account =>
        ReviewItem.mk account (spec_review_notes account.churn_reason)
          (spec_next_action account.owner)) := by
  induction accounts with
  | nil => rfl
  | cons a rest ih =>
    rw [show build_review_plan (a :: rest) = review_item_for a :: build_review_plan rest
        from rfl,
      review_item_for_spec, ih, List.map_cons]

/-- Claim C5: _subtract_months resolves the target year and month by floor
division of the absolute month index: the result decomposes the index
anchor.year * 12 + (anchor.month - 1) - months with a month in 1..12, its
components are Int.fdiv and Int.fmod of that index by 12, and concretely
2024-01-15 minus one month is 2023-12-15. -/
theorem subtract_months_floor_division (anchor : Date) (months : Int) :
    ((subtract_months anchor months).year * 12 +
        ((subtract_months anchor months).month - 1) =
      anchor.year * 12 + (anchor.month - 1) - months) ∧
    1 ≤ (subtract_months anchor months).month ∧
    (subtract_months anchor months).month ≤ 12 ∧
    (subtract_months anchor months).year =
      Int.fdiv (anchor.year * 12 + (anchor.month - 1) - months) 12 ∧
    (subtract_months anchor months).month =
      Int.fmod (anchor.year * 12 + (anchor.month - 1) - months) 12 + 1 ∧
    subtract_months ⟨2024, 1, 15⟩ 1 = ⟨2023, 12, 15⟩ := by
  refine ⟨?_, ?_, ?_, rfl, rfl, by decide⟩ <;> rw [subtract_months_eq] <;>
    simp only [] <;> omega

/-- Claim C6: select_recent_churns is a stable filter: the result is an
ordered sublist of the input, and any account whose churn date satisfies
the window predicate occurs in the result exactly as often as in the input,
so boundary ties are neither duplicated nor dropped; concretely the two
in-window accounts A and B come back in input order. -/
theorem select_recent_churns_stable (accounts : List Account) (months : Int)
    (as_of : Date) (h : 0 ≤ months) :
    List.Sublist (select_recent_churns accounts months as_of) accounts ∧
    (∀ a, (date_le (subtract_months as_of months) a.churned_at &&
        date_le a.churned_at as_of) = true →
      (select_recent_churns accounts months as_of).count a = accounts.count a) ∧
    select_recent_churns
        [test_account "A" ⟨2024, 5, 1⟩, test_account "B" ⟨2024, 4, 1⟩] 3 ⟨2024, 6, 15⟩ =
      [test_account "A" ⟨2024, 5, 1⟩, test_account "B" ⟨2024, 4, 1⟩] := by
  refine ⟨List.filter_sublist accounts, ?_, by decide⟩
  intro a ha
  exact List.count_filter ha

/-- Witness instantiating claim C6 on a boundary account. -/
theorem select_recent_churns_stable_witness :
    (select_recent_churns [test_account "a" ⟨2024, 3, 15⟩] 3 ⟨2024, 6, 15⟩).count
        (test_account "a" ⟨2024, 3, 15⟩) =
      ([test_account "a" ⟨2024, 3, 15⟩].count (test_account "a" ⟨2024, 3, 15⟩)) :=
  (select_recent_churns_stable [test_account "a" ⟨2024, 3, 15⟩] 3 ⟨2024, 6, 15⟩
    (by decide)).2.1 (test_account "a" ⟨2024, 3, 15⟩) (by decide)

/-- Claim C7: subtracting zero months from a valid date is the identity,
and hence subtracting zero months from any result of _subtract_months
leaves it unchanged. -/
theorem subtract_months_zero_identity (d : Date) (h : d.valid) :
    subtract_months d 0 = d ∧
    ∀ months : Int, subtract_months (subtract_months d months) 0 =
      subtract_months d months :=
  ⟨subtract_months_zero d h,
   fun months => subtract_months_zero (subtract_months d months)
     (subtract_months_valid d months h)⟩

/-- Witness instantiating claim C7 at 2024-06-15. -/
theorem subtract_months_zero_identity_witness :
    subtract_months ⟨2024, 6, 15⟩ 0 = ⟨2024, 6, 15⟩ :=
  (subtract_months_zero_identity ⟨2024, 6, 15⟩ (by decide)).1

/-- Claim C8: run_review dispatches on the lowercased extension: a suffix
lowering to .csv runs the pipeline on the CSV load, one lowering to .json
runs it on the JSON load, and any other suffix yields the
unsupported-format error for every possible file content, so no content is
consulted on that path. -/
theorem run_review_dispatch (suffix : String) (csv_rows : List CsvRow)
    (json_entries : List JsonEntry) (months : Int) (as_of : Date) :
    (lower_string suffix = ".csv" →
      run_review suffix csv_rows json_entries months as_of =
        Except.map (fun accounts => build_review_plan
          (select_recent_churns accounts months as_of)) (load_accounts_from_csv csv_rows)) ∧
    (lower_string suffix = ".json" →
      run_review suffix csv_rows json_entries months as_of =
        Except.map (fun accounts => build_review_plan
          (select_recent_churns accounts months as_of)) (load_accounts_from_json json_entries)) ∧
    (lower_string suffix ≠ ".csv" → lower_string suffix ≠ ".json" →
      run_review suffix csv_rows json_entries months as_of =
        Except.error "Supported input formats: .csv, .json") := by
  refine ⟨?_, ?_, ?_⟩
  · intro hs
    unfold run_review
    rw [if_pos hs]
    cases hload : load_accounts_from_csv csv_rows <;> simp [Except.map]
  · intro hs
    have hne : lower_string suffix ≠ ".csv" := by rw [hs]; decide
    unfold run_review
    rw [if_neg hne, if_pos hs]
    cases hload : load_accounts_from_json json_entries <;> simp [Except.map]
  · intro h1 h2
    unfold run_review
    rw [if_neg h1, if_neg h2]

/-- Witness instantiating claim C8 at the suffixes .CSV, .Json and .txt. -/
theorem run_review_dispatch_witness :
    (run_review ".CSV" [] [] 3 ⟨2024, 6, 15⟩ =
      Except.map (fun accounts => build_review_plan
        (select_recent_churns accounts 3 ⟨2024, 6, 15⟩)) (load_accounts_from_csv [])) ∧
    (run_review ".Json" [] [] 3 ⟨2024, 6, 15⟩ =
      Except.map (fun accounts => build_review_plan
        (select_recent_churns accounts 3 ⟨2024, 6, 15⟩)) (load_accounts_from_json [])) ∧
    run_review ".txt" [] [] 3 ⟨2024, 6, 15⟩ =
      Except.error "Supported input formats: .csv, .json" :=
  ⟨(run_review_dispatch ".CSV" [] [] 3 ⟨2024, 6, 15⟩).1 (by decide),
   (run_review_dispatch ".Json" [] [] 3 ⟨2024, 6, 15⟩).2.1 (by decide),
   (run_review_dispatch ".txt" [] [] 3 ⟨2024, 6, 15⟩).2.2 (by decide) (by decide)⟩

/-- Claim C9: build_review_plan is total and pure in the embedding: for
every account list it returns one item per account, and projecting the
account out of each item gives back the input list unchanged. -/
theorem build_review_plan_total_pure (accounts : List Account) :
    (build_review_plan accounts).map ReviewItem.account = accounts ∧
    (build_review_plan accounts).length = accounts.length := by
  constructor
  · rw [build_review_plan, List.map_map]
    have hcomp : ReviewItem.account ∘ review_item_for = id := by
      funext a
      exact review_item_for_account a
    rw [hcomp, List.map_id]
  · rw [build_review_plan, List.length_map]

/-- Claim C10: build_review_plan decides presence by Python truthiness,
field by field: for every account, an empty-string churn_reason yields
exactly the fixed default review_notes, the same notes an account with the
field absent gets, whatever owner is; and an empty-string owner yields
exactly the fixed default next_action, the same action an account with the
field absent gets, whatever churn_reason is. -/
theorem empty_string_field_defaults (a : Account) :
    (a.churn_reason = some "" →
      (build_review_plan [a]).map ReviewItem.review_notes =
        ["Confirm churn reason and validate offboarding completion."] ∧
      (build_review_plan [a]).map ReviewItem.review_notes =
        (build_review_plan [{ a with churn_reason := none }]).map
          ReviewItem.review_notes) ∧
    (a.owner = some "" →
      (build_review_plan [a]).map ReviewItem.next_action =
        ["Schedule follow-up with account owner."] ∧
      (build_review_plan [a]).map ReviewItem.next_action =
        (build_review_plan [{ a with owner := none }]).map ReviewItem.next_action) := by
  constructor
  · intro hcr
    constructor <;> simp [build_review_plan, review_item_for, truthy, hcr]
  · intro ho
    constructor <;> simp [build_review_plan, review_item_for, truthy, ho]

/-- Witness instantiating claim C10 on the two mixed accounts: one with an
empty reason and a set owner, one with a set reason and an empty owner. -/
theorem empty_string_field_defaults_witness :
    (build_review_plan [account_mixed_reason]).map ReviewItem.review_notes =
      ["Confirm churn reason and validate offboarding completion."] ∧
    (build_review_plan [account_mixed_owner]).map ReviewItem.next_action =
      ["Schedule follow-up with account owner."] :=
  ⟨((empty_string_field_defaults account_mixed_reason).1 rfl).1,
   ((empty_string_field_defaults account_mixed_owner).2 rfl).1⟩

end ChurnReview
